import Mathlib

/-!
Verification of `src/tab_bar.py` (cliuj/config-kitty): a kitty tab-bar
renderer.  We shallowly embed the data model (Cell, tab metadata), the text
providers (`get_wd`, `get_tab`), the center layout strategist
(`center_strategy`), and the per-tab entry point's state transitions
(`draw_tab`), and prove the specification's claims about them.

Conventions of the embedding:
- Python `int` is `Int`; Python `len` of a string is `String.length`
  (both count code points).
- Drawing into the screen is modelled by the list of strings written via
  `screen.draw(...)`; cursor-style mutations (bold/colors) consume no
  columns and are not modelled.  The number of columns consumed is the sum
  of the lengths of the drawn strings.
- A text provider returning Python `None` (hidden) is `Option.none`.
- A pathlib `Path` is modelled by its `parts` tuple as a `List String`
  (for an absolute path the first part is `"/"`, as in pathlib).
- A Python runtime error (IndexError on `title[0]`) is `Except.error`.
-/

namespace TabBar

/-- Per-tab metadata supplied by the host (kitty's `TabBarData` plus the
`TabAccessor` lookups keyed by `tab_id`, folded into one record). -/
structure Tab where
  tab_id : Nat
  title : String
  /-- `str(TabAccessor(tab_id).active_exe)` -/
  active_exe : String
  /-- pathlib parts of `TabAccessor(tab_id).active_wd` -/
  active_wd : List String
  is_active : Bool
  session_name : String
  deriving DecidableEq

/- Host colors are resolved from kitty.conf at startup; the concrete RGB
values are host configuration and irrelevant to layout, so they are
modelled as distinct numeric stand-ins. -/

def BG : Nat := 0
def FG : Nat := 1
def COLOR_1 : Nat := 2
def COLOR_2 : Nat := 3
def COLOR_3 : Nat := 4
def COLOR_4 : Nat := 5

/-- Max number of path components shown before truncating with `".."`. -/
def MAX_LENGTH_PATH : Nat := 3

/-- `Cell` — a single drawable block in the tab bar (class `Cell`).
The `text_fn` closure takes the inner width budget and returns
`none` (hidden), `some ""` (icon-only) or `some label`.  The `tab`
argument of the Python `text_fn` is captured in the closure here. -/
structure Cell where
  icon : String
  text_fn : Int → Option String
  tab : Option Tab := none
  bg : Nat := BG
  fg : Nat := FG
  color : Nat := COLOR_1
  separator : String := ""
  border : String × String := ("", "")

instance : Inhabited Cell := ⟨{ icon := "", text_fn := fun _ => none }⟩

/-- `self.text_length_overhead = len(border[0]+border[1]+separator+icon)+1`
(computed in `Cell.__init__`). -/
def Cell.text_length_overhead (c : Cell) : Nat :=
  (c.border.1 ++ c.border.2 ++ c.separator ++ c.icon).length + 1

/-- `Cell.length(max_size)`: how many columns the cell will occupy. -/
def Cell.length (c : Cell) (max_size : Int) : Nat :=
  match c.text_fn (max_size - (c.text_length_overhead : Int)) with
  | none => 0
  | some t =>
    if t = "" then (c.icon ++ c.border.1 ++ c.border.2).length
    else t.length + c.text_length_overhead

/-- `Cell.draw(screen, max_size)`: the sequence of strings written with
`screen.draw(...)`, in order.  Cursor-style mutations are omitted: they
consume no columns. -/
def Cell.draw (c : Cell) (max_size : Int) : List String :=
  match c.text_fn (max_size - (c.text_length_overhead : Int)) with
  | none => []
  | some t =>
    if t = "" then
      -- icon-only mode: left border, icon, right border
      [c.border.1, c.icon, c.border.2]
    else
      -- left border, icon, separator, space + label, right border
      [c.border.1, c.icon, c.separator, " " ++ t, c.border.2]

/-- Columns consumed by a sequence of `screen.draw` calls: each drawn
string advances the cursor by its length. -/
def drawnColumns (out : List String) : Nat :=
  (out.map String.length).sum

/-- **C1.** `draw` and `length` are consistent: for every cell and every
`maxWidth`, the number of columns written by `draw` equals
`length(maxWidth)`; and `length` is 0 when the provider returns hidden,
`len icon + len border.left + len border.right` on the empty string
(icon-only), and `len label + overhead` on a label, where
`overhead = len(borders + separator + icon) + 1`.  (The provider is a pure
function in this model, so repeated calls with the same width agree.) -/
theorem cell_draw_length_consistent (c : Cell) (ms : Int) :
    drawnColumns (c.draw ms) = c.length ms ∧
    c.length ms =
      (match c.text_fn (ms - (c.text_length_overhead : Int)) with
       | none => 0
       | some t =>
         if t = "" then
           c.icon.length + c.border.1.length + c.border.2.length
         else t.length + c.text_length_overhead) ∧
    c.text_length_overhead =
      c.border.1.length + c.border.2.length + c.separator.length
        + c.icon.length + 1 := by
  have hov : c.text_length_overhead =
      c.border.1.length + c.border.2.length + c.separator.length
        + c.icon.length + 1 := by
    simp [Cell.text_length_overhead, String.length_append]
  refine ⟨?_, ?_, hov⟩
  · cases h : c.text_fn (ms - (c.text_length_overhead : Int)) with
    | none => simp [Cell.draw, Cell.length, drawnColumns, h]
    | some t =>
      by_cases ht : t = "" <;>
        simp only [Cell.draw, Cell.length, drawnColumns, h, ht,
          if_pos, if_neg, not_false_iff, List.map_cons, List.map_nil,
          List.sum_cons, List.sum_nil] <;>
        simp [String.length_append,
          show (" " : String).length = 1 from rfl] <;> omega
  · cases h : c.text_fn (ms - (c.text_length_overhead : Int)) with
    | none => simp [Cell.length, h]
    | some t =>
      by_cases ht : t = "" <;>
        simp only [Cell.length, h, ht, if_pos, if_neg, not_false_iff] <;>
        simp [String.length_append] <;> omega

/-! ## Working-directory provider (`get_wd`) -/

/-- `"/".join(parts)` — joining path segments with `"/"`. -/
def joinPath : List String → String
  | [] => ""
  | [p] => p
  | p :: ps => p ++ "/" ++ joinPath ps

/-- Lines 133–143 of `get_wd`: replace the `$HOME` prefix of the working
directory with `~`.  Paths are pathlib `parts` lists; `is_relative_to` is
the parts-prefix test, `relative_to` drops that prefix (yielding `[]`, the
parts of `Path(".")`, when the path equals home), and `Path("~") / rel`
prepends `"~"` (pathlib drops the `.` of an empty relative path, so both
branches of the source's `wd == home` test produce `["~"]` there). -/
def substHome (home wd : List String) : List String :=
  if home.isPrefixOf wd then
    let rel := wd.drop home.length
    if rel = home then ["~"] else "~" :: rel
  else wd

/-- Lines 145–150 of `get_wd`: if the path is deeper than
`MAX_LENGTH_PATH`, truncate middle segments with `".."`, keeping
`parts[0]` and the last `MAX_LENGTH_PATH` segments. -/
def compressParts (parts : List String) : List String :=
  if parts.length > MAX_LENGTH_PATH then
    parts.take 1 ++ [".."] ++ parts.drop (parts.length - MAX_LENGTH_PATH)
  else parts

/-- Lines 152–164 of `get_wd`: progressively drop leading segments (after
the fixed head `parts[0:1+compressed]`) until the joined path fits
`max_size`; as a last resort return the final segment `parts[-1]` alone if
it fits, else hide.  The Python loop counter `parts_cnt` is represented by
the remaining suffix `parts[parts_cnt:]`, on which the recursion is
structural; `last` is `parts[-1]`. -/
def wdFit (head : List String) (max_size : Int) :
    List String → String → Option String
  | [], last => if (last.length : Int) ≤ max_size then some last else none
  | p :: ps, last =>
    let wd := joinPath (head ++ p :: ps)
    if (wd.length : Int) ≤ max_size then some wd
    else wdFit head max_size ps last

/-- `get_wd(max_size, tab)` — left widget: working directory of the active
pane, compressed if deep.  `home` stands for `Path(os.getenv('HOME'))`. -/
def get_wd (home : List String) (max_size : Int) (tab : Tab) :
    Option String :=
  let wd := substHome home tab.active_wd
  let parts := compressParts wd
  let head_cnt : Nat := if wd.length > MAX_LENGTH_PATH then 2 else 1
  wdFit (parts.take head_cnt) max_size (parts.drop head_cnt)
    (parts.getLastD "")

/-- Every `some` result of the fitting loop passed its `≤ max_size`
guard. -/
theorem wdFit_le (head : List String) (ms : Int) :
    ∀ (rest : List String) (last s : String),
      wdFit head ms rest last = some s → (s.length : Int) ≤ ms := by
  intro rest
  induction rest with
  | nil =>
    intro last s h
    by_cases hl : (last.length : Int) ≤ ms <;> simp [wdFit, hl] at h
    exact h ▸ hl
  | cons p ps ih =>
    intro last s h
    by_cases hl : ((joinPath (head ++ p :: ps)).length : Int) ≤ ms
    · simp [wdFit, hl] at h
      exact h ▸ hl
    · simp [wdFit, hl] at h
      exact ih last s h

/-- The join of a nonempty segment list is at least as long as its final
segment. -/
theorem getLast_length_le_joinPath :
    ∀ (p : List String) (l : String),
      p.getLast? = some l → l.length ≤ (joinPath p).length := by
  intro p
  induction p with
  | nil => intro l h; simp at h
  | cons x xs ih =>
    intro l h
    cases xs with
    | nil =>
      simp [List.getLast?] at h
      simp [joinPath, h]
    | cons y ys =>
      rw [List.getLast?_cons_cons] at h
      have := ih l h
      simp only [joinPath, String.length_append]
      omega

/-- Dropping fewer than all elements preserves the final element. -/
theorem getLast?_drop_of_lt {α : Type} :
    ∀ (p : List α) (n : Nat), n < p.length →
      (p.drop n).getLast? = p.getLast? := by
  intro p
  induction p with
  | nil => intro n h; simp at h
  | cons x xs ih =>
    intro n h
    cases n with
    | zero => rfl
    | succ m =>
      simp only [List.length_cons] at h
      have hm : m < xs.length := by omega
      have hxs : xs ≠ [] := by
        intro he; rw [he] at hm; simp at hm
      rw [List.drop_succ_cons, ih m hm]
      cases xs with
      | nil => simp at hxs
      | cons y ys => rw [List.getLast?_cons_cons]

/-- If even the final segment is longer than the budget, the fitting loop
hides (returns `none`): every joined candidate contains that final
segment. -/
theorem wdFit_none_of_last_long (head : List String) (ms : Int) :
    ∀ (rest : List String) (last : String),
      (rest = [] ∨ rest.getLast? = some last) →
      ms < (last.length : Int) →
      wdFit head ms rest last = none := by
  intro rest
  induction rest with
  | nil =>
    intro last _ hlong
    simp only [wdFit]
    rw [if_neg (by omega)]
  | cons p ps ih =>
    intro last hinv hlong
    have hlast : (p :: ps).getLast? = some last := by
      rcases hinv with h | h
      · exact absurd h (by simp)
      · exact h
    have hjoin : last.length ≤ (joinPath (head ++ p :: ps)).length := by
      apply getLast_length_le_joinPath
      rw [List.getLast?_append, hlast]; rfl
    simp only [wdFit]
    rw [if_neg (by omega)]
    apply ih
    · cases ps with
      | nil => exact Or.inl rfl
      | cons q qs =>
        rw [List.getLast?_cons_cons] at hlast
        exact Or.inr hlast
    · exact hlong

/-- `substHome` of a nonempty parts list is nonempty. -/
theorem substHome_ne_nil (home : List String) {wd : List String}
    (h : wd ≠ []) : substHome home wd ≠ [] := by
  simp only [substHome]
  split
  · split <;> simp
  · exact h

/-- `compressParts` preserves the final segment. -/
theorem getLast?_compressParts (parts : List String) :
    (compressParts parts).getLast? = parts.getLast? := by
  unfold compressParts
  split
  · next hgt =>
    rw [List.append_assoc, List.getLast?_append]
    have hne : parts.drop (parts.length - MAX_LENGTH_PATH) ≠ [] := by
      rw [ne_eq, List.drop_eq_nil_iff]
      unfold MAX_LENGTH_PATH at hgt ⊢
      omega
    rw [List.getLast?_append,
      getLast?_drop_of_lt parts _ (by unfold MAX_LENGTH_PATH at hgt ⊢; omega)]
    cases hl : parts.getLast? with
    | none =>
      rw [List.getLast?_eq_none_iff] at hl
      exact absurd hl (by intro he; rw [he] at hgt; simp at hgt)
    | some x => rfl
  · rfl

/-- `get_wd` unfolded to its fitting-loop call (definitional). -/
theorem get_wd_eq (home : List String) (ms : Int) (tab : Tab) :
    get_wd home ms tab =
      wdFit ((compressParts (substHome home tab.active_wd)).take
          (if (substHome home tab.active_wd).length > MAX_LENGTH_PATH
            then 2 else 1)) ms
        ((compressParts (substHome home tab.active_wd)).drop
          (if (substHome home tab.active_wd).length > MAX_LENGTH_PATH
            then 2 else 1))
        ((compressParts (substHome home tab.active_wd)).getLastD "") := rfl

/-- The final-segment argument passed to the fitting loop is indeed the
last element of whatever suffix of the parts is still under
consideration. -/
theorem drop_getLast_invariant (parts : List String) (n : Nat)
    (hpne : parts ≠ []) :
    parts.drop n = [] ∨
      (parts.drop n).getLast? = some (parts.getLastD "") := by
  by_cases hrest : parts.drop n = []
  · exact Or.inl hrest
  · right
    have hlt : n < parts.length := by
      have := mt List.drop_eq_nil_iff.mpr hrest
      omega
    rw [getLast?_drop_of_lt parts n hlt, List.getLastD_eq_getLast?]
    cases hg : parts.getLast? with
    | none => rw [List.getLast?_eq_none_iff] at hg; exact absurd hg hpne
    | some x => rfl

/-- **C3.** `get_wd` never returns a string longer than `maxWidth`: it
returns hidden (`none`) or a string whose length is at most `max_size`;
and when even the final path segment alone is longer than `max_size`, it
returns hidden. -/
theorem get_wd_within_budget (home : List String) (ms : Int) (tab : Tab)
    (hwd : tab.active_wd ≠ []) :
    (∀ s, get_wd home ms tab = some s → (s.length : Int) ≤ ms) ∧
    (ms < (((substHome home tab.active_wd).getLastD "").length : Int) →
      get_wd home ms tab = none) := by
  constructor
  · intro s h
    rw [get_wd_eq] at h
    exact wdFit_le _ ms _ _ s h
  · intro hlong
    have hwne : substHome home tab.active_wd ≠ [] :=
      substHome_ne_nil home hwd
    have hpne : compressParts (substHome home tab.active_wd) ≠ [] := by
      intro he
      have h2 := getLast?_compressParts (substHome home tab.active_wd)
      rw [he] at h2
      simp only [List.getLast?_nil] at h2
      exact hwne (List.getLast?_eq_none_iff.mp h2.symm)
    have hlastp :
        (compressParts (substHome home tab.active_wd)).getLastD "" =
          (substHome home tab.active_wd).getLastD "" := by
      rw [List.getLastD_eq_getLast?, List.getLastD_eq_getLast?,
        getLast?_compressParts]
    rw [get_wd_eq]
    apply wdFit_none_of_last_long
    · exact drop_getLast_invariant _ _ hpne
    · rw [hlastp]; exact hlong

/-- Every `some` result of the fitting loop is either the join of the
fixed head with a nonempty suffix of the remaining segments, or the bare
final segment (the last resort). -/
theorem wdFit_structure (head : List String) (ms : Int) :
    ∀ (rest : List String) (last s : String),
      wdFit head ms rest last = some s →
      (∃ tail, tail ≠ [] ∧ tail <:+ rest ∧ s = joinPath (head ++ tail)) ∨
      s = last := by
  intro rest
  induction rest with
  | nil =>
    intro last s h
    simp only [wdFit] at h
    split at h
    · right; exact (Option.some.inj h).symm
    · exact absurd h (by simp)
  | cons p ps ih =>
    intro last s h
    simp only [wdFit] at h
    split at h
    · exact Or.inl ⟨p :: ps, by simp, List.suffix_refl _,
        (Option.some.inj h).symm⟩
    · rcases ih last s h with ⟨tail, hne, hsuf, hs⟩ | hs
      · exact Or.inl ⟨tail, hne, hsuf.trans (List.suffix_cons p ps), hs⟩
      · exact Or.inr hs

/-- **C4 (counterexample).** The claim "every string returned contains
exactly one ellipsis marker" fails at the last-resort return: for the
6-segment path `/a/b/c/d/e` (not under home `/home/u`) and `maxWidth = 3`,
`get_wd` returns the bare final segment `"e"`, which contains no `".."`
marker at all. -/
theorem get_wd_marker_cex :
    get_wd ["/", "home", "u"] 3
        { tab_id := 0, title := "t", active_exe := "exe",
          active_wd := ["/", "a", "b", "c", "d", "e"],
          is_active := false, session_name := "" } = some "e" ∧
      "e".toList.count ('.' : Char) = 0 := by
  constructor
  · rfl
  · decide

/-- **C4 (amended).** For a working directory whose segment count after
home-prefix substitution exceeds `MAX_LENGTH_PATH = 3`, every string
`get_wd` returns is either the join of the first segment, a single `".."`
marker, and a nonempty tail of at most `MAX_LENGTH_PATH` trailing
segments (the last `MAX_LENGTH_PATH` original segments), or — as the last
resort — the bare final segment, which carries no marker. -/
theorem get_wd_marker_structure (home : List String) (ms : Int) (tab : Tab)
    (hlen : MAX_LENGTH_PATH < (substHome home tab.active_wd).length) :
    ∀ s, get_wd home ms tab = some s →
      (∃ tail, tail ≠ [] ∧ tail.length ≤ MAX_LENGTH_PATH ∧
        tail <:+ (substHome home tab.active_wd).drop
            ((substHome home tab.active_wd).length - MAX_LENGTH_PATH) ∧
        s = joinPath ((substHome home tab.active_wd).take 1
              ++ [".."] ++ tail)) ∨
      s = (substHome home tab.active_wd).getLastD "" := by
  intro s h
  rw [get_wd_eq] at h
  rw [if_pos hlen] at h
  simp only [compressParts, if_pos hlen] at h
  have hA : ((substHome home tab.active_wd).take 1
      ++ ([".."] : List String)).length = 2 := by
    simp only [List.length_append, List.length_take, List.length_cons,
      List.length_nil]
    unfold MAX_LENGTH_PATH at hlen
    omega
  rw [List.take_left' hA, List.drop_left' hA] at h
  have hlast :
      (((substHome home tab.active_wd).take 1 ++ [".."])
          ++ (substHome home tab.active_wd).drop
            ((substHome home tab.active_wd).length
              - MAX_LENGTH_PATH)).getLastD "" =
        (substHome home tab.active_wd).getLastD "" := by
    have h2 := getLast?_compressParts (substHome home tab.active_wd)
    simp only [compressParts, if_pos hlen] at h2
    rw [List.getLastD_eq_getLast?, List.getLastD_eq_getLast?, h2]
  rcases wdFit_structure _ ms _ _ _ h with ⟨tail, hne, hsuf, hs⟩ | hs
  · left
    refine ⟨tail, hne, ?_, hsuf, hs⟩
    have h3 := hsuf.length_le
    rw [List.length_drop] at h3
    unfold MAX_LENGTH_PATH at hlen h3 ⊢
    omega
  · exact Or.inr (hs.trans hlast)

/-- **C5.** For a tab whose active pane's working directory is exactly the
user's home directory, `get_wd` returns the one-character string `"~"`,
for every `maxWidth ≥ 1`.  (In the source, `relative_to` yields the empty
relative path and `Path("~") / Path(".")` normalizes to `Path("~")`.) -/
theorem get_wd_home_tilde (home : List String) (ms : Int) (tab : Tab)
    (hh : home ≠ []) (hwd : tab.active_wd = home) (hms : 1 ≤ ms) :
    get_wd home ms tab = some "~" := by
  have hpre : home.isPrefixOf home = true := by
    simp [List.isPrefixOf_iff_prefix]
  have hsub : substHome home tab.active_wd = ["~"] := by
    rw [hwd]
    simp [substHome, hpre, List.drop_length, Ne.symm hh]
  rw [get_wd_eq, hsub]
  show (if (("~" : String).length : Int) ≤ ms then some "~" else none)
    = some "~"
  rw [if_pos (by exact_mod_cast hms)]

/-- A tab whose working directory `/a/b/c/d/e` has six pathlib parts. -/
def deepTab : Tab := ⟨0, "t", "exe", ["/", "a", "b", "c", "d", "e"], false, ""⟩

/-- A tab whose working directory is exactly the home directory
`/home/u`. -/
def homeTab : Tab := ⟨3, "#h", "sh", ["/", "home", "u"], true, ""⟩

/-- **C3 (witness).** -/
theorem get_wd_within_budget_witness :
    deepTab.active_wd ≠ [] ∧
    get_wd ["/", "home", "u"] 20 deepTab = some "//../c/d/e" ∧
    (("//../c/d/e" : String).length : Int) ≤ 20 :=
  ⟨by decide, rfl,
    (get_wd_within_budget ["/", "home", "u"] 20 deepTab (by decide)).1
      "//../c/d/e" rfl⟩

/-- **C4 (witness).** -/
theorem get_wd_marker_structure_witness :
    MAX_LENGTH_PATH
        < (substHome ["/", "home", "u"] deepTab.active_wd).length ∧
    ((∃ tail, tail ≠ [] ∧ tail.length ≤ MAX_LENGTH_PATH ∧
        tail <:+ (substHome ["/", "home", "u"] deepTab.active_wd).drop
            ((substHome ["/", "home", "u"] deepTab.active_wd).length
              - MAX_LENGTH_PATH) ∧
        "//../c/d/e" = joinPath
          ((substHome ["/", "home", "u"] deepTab.active_wd).take 1
            ++ [".."] ++ tail)) ∨
      "//../c/d/e"
        = (substHome ["/", "home", "u"] deepTab.active_wd).getLastD "") :=
  ⟨by decide,
    get_wd_marker_structure ["/", "home", "u"] 20 deepTab (by decide)
      "//../c/d/e" rfl⟩

/-- **C5 (witness).** -/
theorem get_wd_home_tilde_witness :
    (["/", "home", "u"] : List String) ≠ [] ∧
    homeTab.active_wd = ["/", "home", "u"] ∧ (1 : Int) ≤ 9 ∧
    get_wd ["/", "home", "u"] 9 homeTab = some "~" :=
  ⟨by decide, rfl, by decide,
    get_wd_home_tilde ["/", "home", "u"] 9 homeTab (by decide) rfl
      (by decide)⟩

/-! ## Tab-label provider (`get_tab`) -/

/-- Lines 177–180 of `get_tab`: the label is the title without its leading
`#` marker, or else the active pane's executable name.  (Only meaningful
for a non-empty title; `get_tab` errors first otherwise.) -/
def tab_label (tab : Tab) : String :=
  if tab.title.take 1 = "#" then tab.title.drop 1 else tab.active_exe

/-- `get_tab(max_size, tab)` — center widget: tab label.  `tab.title[0]`
raises `IndexError` on an empty title, modelled as `Except.error ()`; on a
non-empty title the provider never hides, returning `some ""` (icon-only)
when there is not enough room and the label verbatim otherwise. -/
def get_tab (max_size : Int) (tab : Tab) : Except Unit (Option String) :=
  if tab.title = "" then .error ()
  else if max_size ≤ ((tab_label tab).length : Int) then .ok (some "")
  else .ok (some (tab_label tab))

/-- A tab whose title is the bare marker `"#"` (so its label is empty). -/
def hashTab : Tab := ⟨1, "#", "bash", ["/"], true, ""⟩

/-- A tab with the user-chosen label `alpha`. -/
def alphaTab : Tab := ⟨1, "#alpha", "bash", ["/"], true, "dev"⟩

/-- A tab with an empty title. -/
def emptyTitleTab : Tab := ⟨2, "", "zsh", ["/"], false, ""⟩

/-- **C6 (counterexample).** "Returns the empty string iff the label's
length is ≥ maxWidth" fails when the label itself is empty: for title
`"#"` (non-empty, so the claim applies) the label is `""`, and with
`maxWidth = 5` the code returns the label verbatim — the empty string —
although the label's length 0 is smaller than 5. -/
theorem get_tab_empty_label_cex :
    get_tab 5 hashTab = .ok (some "") ∧
    ¬ ((5 : Int) ≤ ((tab_label hashTab).length : Int)) := by
  constructor
  · rfl
  · decide

/-- **C6 (amended).** For a non-empty title, `get_tab` returns
`some ""` when `maxWidth ≤ len(label)` and the label verbatim otherwise
(never truncated); provided additionally that the label is non-empty, the
returned value is the empty string iff the label's length is
`≥ maxWidth`.  (When the label is empty, both branches return the empty
string, so the iff as originally claimed fails.) -/
theorem get_tab_label_rule (ms : Int) (t : Tab) (h : t.title ≠ "") :
    get_tab ms t =
      .ok (if ms ≤ ((tab_label t).length : Int) then some ""
           else some (tab_label t)) ∧
    (tab_label t ≠ "" →
      (get_tab ms t = .ok (some "") ↔ ms ≤ ((tab_label t).length : Int)))
    := by
  constructor
  · simp only [get_tab, if_neg h]
    by_cases hc : ms ≤ ((tab_label t).length : Int) <;> simp [hc]
  · intro hlabel
    constructor
    · intro he
      by_cases hc : ms ≤ ((tab_label t).length : Int)
      · exact hc
      · simp only [get_tab, if_neg h, if_neg hc] at he
        exact absurd (Option.some.inj (Except.ok.inj he)) hlabel
    · intro hc
      simp only [get_tab, if_neg h, if_pos hc]

/-- **C6 (witness).** -/
theorem get_tab_label_rule_witness :
    alphaTab.title ≠ "" ∧
    (get_tab 80 alphaTab =
        .ok (if (80 : Int) ≤ ((tab_label alphaTab).length : Int)
          then some "" else some (tab_label alphaTab)) ∧
      (tab_label alphaTab ≠ "" →
        (get_tab 80 alphaTab = .ok (some "") ↔
          (80 : Int) ≤ ((tab_label alphaTab).length : Int)))) :=
  ⟨by decide, get_tab_label_rule 80 alphaTab (by decide)⟩

/-- **C10.** For every tab whose title is the empty string, `get_tab`
fails with the modelled `IndexError` (`tab.title[0]` has no guard), for
every `maxWidth`: a non-empty title is a precondition of the tab-label
provider. -/
theorem get_tab_empty_title_error (ms : Int) (t : Tab) (h : t.title = "") :
    get_tab ms t = .error () := by
  simp [get_tab, h]

/-- **C10 (witness).** -/
theorem get_tab_empty_title_error_witness :
    emptyTitleTab.title = "" ∧ get_tab 7 emptyTitleTab = .error () :=
  ⟨rfl, get_tab_empty_title_error 7 emptyTitleTab rfl⟩

/-! ## Center layout strategist -/

/-- `get_tab_cell(tab)`: a `Cell` for a tab — active tabs get `COLOR_2`,
inactive `COLOR_1`; icon is `str(tab.tab_id)`, provider is `get_tab`, and
the separator/border glyph defaults of `Cell.__init__` apply.  The
modelled error of `get_tab` on an empty title is mapped to `none` only to
give the cell a total provider; the error itself is tracked by `get_tab`
(claim C10). -/
def get_tab_cell (tab : Tab) : Cell :=
  { icon := toString tab.tab_id
    text_fn := fun ms =>
      match get_tab ms tab with
      | .ok r => r
      | .error _ => none
    tab := some tab
    color := if tab.is_active then COLOR_2 else COLOR_1
    separator := ""
    border := ("", "") }

/-- The five rendering strategies (`class CenterStrategy(Enum)`). -/
inductive CenterStrategy where
  | EXPAND_ALL
  | EXPAND_ACTIVE
  | NO_EXPAND
  | SHOW_ACTIVE
  | SHOW_ACTIVE_NO_EXPAND
  deriving DecidableEq

/-- `center_strategy(screen)`: pick the best rendering strategy that fits
the screen width.  The global list `center` and index `active_index` are
passed explicitly, and `screen.columns` is `columns`.  The source indexes
`center[active_index]` in the two show-active branches; an out-of-range
index there (Python `IndexError`) is modelled as `none`. -/
def center_strategy (center : List Cell) (active_index : Nat)
    (columns : Int) : Option (CenterStrategy × Int) :=
  let n_cells := center.length
  let length1 : Int :=
    (n_cells : Int) - 1 + (center.map fun x => (x.length columns : Int)).sum
  if length1 < columns then some (.EXPAND_ALL, length1)
  else
    let length2 : Int :=
      (n_cells : Int) - 1 + (center.enum.map fun ic =>
        if ic.1 = active_index then (ic.2.length columns : Int)
        else (ic.2.length 0 : Int)).sum
    if length2 < columns then some (.EXPAND_ACTIVE, length2)
    else
      let length3 : Int :=
        (n_cells : Int) - 1 + (center.map fun x => (x.length 0 : Int)).sum
      if length3 < columns then some (.NO_EXPAND, length3)
      else
        match center.get? active_index with
        | none => none
        | some c =>
          let length4 : Int := (c.length columns : Int)
          if length4 < columns then some (.SHOW_ACTIVE, length4)
          else some (.SHOW_ACTIVE_NO_EXPAND, (c.length 0 : Int))

/- Spec-side strategy widths, written from the specification's wording:
each of the first three totals includes `n - 1` one-column inter-cell
spaces; Expand-Active gives the active cell the full budget and all others
a zero budget; Show-Active is just the active cell's length at full
budget. -/

/-- `n - 1` one-column spaces between `n` cells. -/
def inter_cell_spaces (n : Nat) : Int := (n : Int) - 1

/-- Total width of the Expand-All strategy. -/
def width_expand_all (cells : List Cell) (columns : Int) : Int :=
  (cells.map fun c => (c.length columns : Int)).sum
    + inter_cell_spaces cells.length

/-- Total width of the Expand-Active strategy: the active cell gets the
full width budget, every other cell a zero budget. -/
def width_expand_active (cells : List Cell) (ai : Nat) (columns : Int) :
    Int :=
  (cells.enum.map fun ic =>
      (ic.2.length (if ic.1 = ai then columns else 0) : Int)).sum
    + inter_cell_spaces cells.length

/-- Total width of the No-Expand strategy: every cell at zero budget. -/
def width_no_expand (cells : List Cell) : Int :=
  (cells.map fun c => (c.length 0 : Int)).sum
    + inter_cell_spaces cells.length

/-- Total width of Show-Active-Expanded: just the active cell at full
budget. -/
def width_show_active (cells : List Cell) (ai : Nat) (columns : Int) :
    Int :=
  ((cells.getD ai default).length columns : Int)

/-- Total width of Show-Active-Icon-Only: just the active cell at zero
budget. -/
def width_show_active_icon (cells : List Cell) (ai : Nat) : Int :=
  ((cells.getD ai default).length 0 : Int)

/-- **C2.** With the active index in range (hence a non-empty cell list),
`center_strategy` evaluates the five strategies in the fixed order and
returns the first whose strict `< columns` fit test passes, the fifth
having no fit test; the returned width is exactly the total width used in
that strategy's fit test, as given by the spec-side width functions. -/
theorem center_strategy_first_fit (cells : List Cell) (ai : Nat)
    (cols : Int) (hai : ai < cells.length) :
    center_strategy cells ai cols = some (
      if width_expand_all cells cols < cols then
        (CenterStrategy.EXPAND_ALL, width_expand_all cells cols)
      else if width_expand_active cells ai cols < cols then
        (CenterStrategy.EXPAND_ACTIVE, width_expand_active cells ai cols)
      else if width_no_expand cells < cols then
        (CenterStrategy.NO_EXPAND, width_no_expand cells)
      else if width_show_active cells ai cols < cols then
        (CenterStrategy.SHOW_ACTIVE, width_show_active cells ai cols)
      else
        (CenterStrategy.SHOW_ACTIVE_NO_EXPAND,
          width_show_active_icon cells ai)) := by
  have hget : cells.get? ai = some (cells.getD ai default) := by
    rw [List.get?_eq_getElem?, List.getD_eq_getElem?_getD,
      List.getElem?_eq_getElem hai]
    rfl
  have hEA : width_expand_all cells cols
      = (cells.length : Int) - 1
        + (cells.map fun c => (c.length cols : Int)).sum := by
    unfold width_expand_all inter_cell_spaces; ring
  have hmap : (cells.enum.map fun ic =>
        (ic.2.length (if ic.1 = ai then cols else 0) : Int))
      = cells.enum.map fun ic =>
        if ic.1 = ai then (ic.2.length cols : Int)
        else (ic.2.length 0 : Int) := by
    apply List.map_congr_left
    intro a _
    by_cases hx : a.1 = ai <;> simp [hx]
  have hEAct : width_expand_active cells ai cols
      = (cells.length : Int) - 1 + (cells.enum.map fun ic =>
          if ic.1 = ai then (ic.2.length cols : Int)
          else (ic.2.length 0 : Int)).sum := by
    unfold width_expand_active inter_cell_spaces
    rw [hmap]; ring
  have hNE : width_no_expand cells
      = (cells.length : Int) - 1
        + (cells.map fun c => (c.length 0 : Int)).sum := by
    unfold width_no_expand inter_cell_spaces; ring
  rw [hEA, hEAct, hNE]
  simp only [center_strategy, hget, width_show_active,
    width_show_active_icon, apply_ite some]

/-- A tab with no `#` marker, labelled by its executable name. -/
def bashTab : Tab := ⟨2, "bash", "bash", ["/"], false, ""⟩

/-- A two-cell accumulator used to instantiate the strategist claims. -/
def sampleCells : List Cell := [get_tab_cell alphaTab, get_tab_cell bashTab]

/-- **C2 (witness).** -/
theorem center_strategy_first_fit_witness :
    0 < sampleCells.length ∧
    center_strategy sampleCells 0 80 = some (
      if width_expand_all sampleCells 80 < 80 then
        (CenterStrategy.EXPAND_ALL, width_expand_all sampleCells 80)
      else if width_expand_active sampleCells 0 80 < 80 then
        (CenterStrategy.EXPAND_ACTIVE, width_expand_active sampleCells 0 80)
      else if width_no_expand sampleCells < 80 then
        (CenterStrategy.NO_EXPAND, width_no_expand sampleCells)
      else if width_show_active sampleCells 0 80 < 80 then
        (CenterStrategy.SHOW_ACTIVE, width_show_active sampleCells 0 80)
      else
        (CenterStrategy.SHOW_ACTIVE_NO_EXPAND,
          width_show_active_icon sampleCells 0)) :=
  ⟨by decide, center_strategy_first_fit sampleCells 0 80 (by decide)⟩

/-- **C8 (counterexample).** With an empty accumulated cell list and 80
columns, `center_strategy` does *not* fail: the Expand-All total is
`0 - 1 + 0 = -1 < 80`, so the first fit test passes and the show-active
paths (the only ones that index `center[active_index]`) are never
reached. -/
theorem center_strategy_empty_cex :
    center_strategy [] 0 80 = some (CenterStrategy.EXPAND_ALL, -1) := by
  decide

/-- **C8 (amended).** If the accumulated list is empty when a frame is
flushed, `center_strategy` itself returns `(Expand-All, -1)` without
error for every column count above `-1` (so for every real screen): the
show-active-only paths are then unreachable, although any evaluation of
the active-cell lookup on the empty list would indeed be out of range —
a non-empty list is an implicit precondition of those paths (and of the
section drawers), not of `center_strategy` as a whole. -/
theorem center_strategy_empty_no_error (ai : Nat) (cols : Int)
    (h : -1 < cols) :
    center_strategy [] ai cols = some (CenterStrategy.EXPAND_ALL, -1) ∧
    ([] : List Cell).get? ai = none := by
  constructor
  · simp [center_strategy, h]
  · simp

/-- **C8 (witness).** -/
theorem center_strategy_empty_no_error_witness :
    ((-1 : Int) < 80) ∧
    (center_strategy [] 3 80 = some (CenterStrategy.EXPAND_ALL, -1) ∧
      ([] : List Cell).get? 3 = none) :=
  ⟨by decide, center_strategy_empty_no_error 3 80 (by decide)⟩

/-! ## Frame coordinator (`draw_tab`) -/

/-- Line 353 of `draw_tab`:
`center_start_position = (screen.columns - length) // 2` — Python floor
division, hence `Int.fdiv`. -/
def center_start_position (columns length : Int) : Int :=
  Int.fdiv (columns - length) 2

/-- **C7.** On the frame-flushing call the center block starts at exactly
`(columns - strategyWidth) // 2` (floor division), and for every
`strategyWidth ≤ columns` the left padding (the start column) and the
right padding (`columns - strategyWidth - start`) differ by at most one
column (the right one is the larger on odd leftover). -/
theorem center_start_centering (columns w : Int) (h : w ≤ columns) :
    center_start_position columns w = Int.fdiv (columns - w) 2 ∧
    ((columns - w - center_start_position columns w)
        - center_start_position columns w = 0 ∨
      (columns - w - center_start_position columns w)
        - center_start_position columns w = 1) := by
  refine ⟨rfl, ?_⟩
  have hf : center_start_position columns w = (columns - w) / 2 :=
    Int.fdiv_eq_ediv _ (by omega)
  rw [hf]
  omega

/-- **C7 (witness).** -/
theorem center_start_centering_witness :
    (10 : Int) ≤ 80 ∧
    (center_start_position 80 10 = Int.fdiv (80 - 10) 2 ∧
      ((80 - 10 - center_start_position 80 10)
          - center_start_position 80 10 = 0 ∨
        (80 - 10 - center_start_position 80 10)
          - center_start_position 80 10 = 1)) :=
  ⟨by decide, center_start_centering 80 10 (by decide)⟩

/-- The process-wide state mutated by `draw_tab`: the accumulator
`center`, the `active_index`, and whether the refresh timer has been
registered (`timer_id is None` → `false`). -/
structure TabBarState where
  center : List Cell
  active_index : Nat
  timer_id : Bool

/-- The state transition of one `draw_tab` call (lines 336–361): register
the timer on first call, record the active index (`index - 1`), append
the current tab's cell; on the last call the full bar is drawn (modelled
by `center_strategy`/`center_start_position`, which do not touch the
state) and the accumulator is cleared for the next frame. -/
def draw_tab_step (s : TabBarState) (tab : Tab) (index : Nat)
    (is_last : Bool) : TabBarState :=
  let s1 := if s.timer_id then s else { s with timer_id := true }
  let s2 := if tab.is_active then { s1 with active_index := index - 1 }
            else s1
  let s3 := { s2 with center := s2.center ++ [get_tab_cell tab] }
  if is_last then { s3 with center := [] } else s3

/-- The state after the non-final calls of a frame, in call order. -/
def run_frame (s : TabBarState) (calls : List (Tab × Nat)) :
    TabBarState :=
  calls.foldl (fun acc c => draw_tab_step acc c.1 c.2 false) s

/-- A non-final call appends exactly the current tab's cell. -/
theorem draw_tab_step_center_false (s : TabBarState) (t : Tab) (i : Nat) :
    (draw_tab_step s t i false).center = s.center ++ [get_tab_cell t] := by
  simp only [draw_tab_step]
  rw [if_neg (by simp : ¬ (false = true))]
  split <;> split <;> rfl

/-- The final call clears the accumulator. -/
theorem draw_tab_step_center_true (s : TabBarState) (t : Tab) (i : Nat) :
    (draw_tab_step s t i true).center = [] := by
  simp only [draw_tab_step]
  rw [if_pos trivial]

/-- Non-final calls only ever append their tab's cell to the
accumulator. -/
theorem run_frame_center :
    ∀ (calls : List (Tab × Nat)) (s : TabBarState),
      (run_frame s calls).center
        = s.center ++ calls.map fun c => get_tab_cell c.1 := by
  intro calls
  induction calls with
  | nil => intro s; simp [run_frame]
  | cons c cs ih =>
    intro s
    simp only [run_frame, List.foldl_cons] at ih ⊢
    rw [ih (draw_tab_step s c.1 c.2 false), draw_tab_step_center_false]
    simp

/-- **C9.** For every frame — a sequence of `draw_tab` calls on a state
whose accumulator starts empty, all non-final, followed by one final call
— after the non-final calls the accumulator holds exactly one cell per
tab seen so far, in call order, and after the final call it is empty
again for the next frame. -/
theorem frame_accumulator_invariant (s0 : TabBarState)
    (calls : List (Tab × Nat)) (lastTab : Tab) (lastIdx : Nat)
    (h : s0.center = []) :
    (run_frame s0 calls).center
        = (calls.map fun c => get_tab_cell c.1) ∧
    (draw_tab_step (run_frame s0 calls) lastTab lastIdx
        true).center = [] := by
  constructor
  · rw [run_frame_center, h]
    simp
  · rw [draw_tab_step_center_true]

/-- **C9 (witness).** -/
theorem frame_accumulator_invariant_witness :
    (⟨[], 1, false⟩ : TabBarState).center = [] ∧
    ((run_frame ⟨[], 1, false⟩ [(alphaTab, 1)]).center
        = ([(alphaTab, 1)].map fun c => get_tab_cell c.1) ∧
      (draw_tab_step (run_frame ⟨[], 1, false⟩ [(alphaTab, 1)])
          bashTab 2 true).center = []) :=
  ⟨rfl,
    frame_accumulator_invariant ⟨[], 1, false⟩ [(alphaTab, 1)] bashTab 2
      rfl⟩

end TabBar
